import Mathlib

/-!
Shallow embedding of the mock NRIC verification demo (`src/app.py`).

The two text heuristics `extract_name` and `extract_nric_last_4` are pure
functions over the OCR text; they are embedded here over `List Char`
(strings as character lists), with Python's regex character classes
(`\d`, `[A-Z]` under `re.IGNORECASE`, `\s`) modelled on their ASCII
fragment.  The `/verify` Flask handler is embedded as a pure function
parameterised by its two external collaborators (image decoding and OCR),
each modelled as a fallible function returning `Except String _`
(an exception raised by the collaborator becomes an `Except.error` whose
payload is the exception's textual description).
-/

/-- ASCII fragment of Python's `\d` / `str.isdigit` for regex purposes:
the characters `'0'..'9'`. -/
def isDigitC (c : Char) : Bool :=
  48 ≤ c.toNat && c.toNat ≤ 57

/-- ASCII uppercase letters `'A'..'Z'` (Python `str.isupper` on one char). -/
def isUpperC (c : Char) : Bool :=
  65 ≤ c.toNat && c.toNat ≤ 90

/-- ASCII lowercase letters `'a'..'z'`. -/
def isLowerC (c : Char) : Bool :=
  97 ≤ c.toNat && c.toNat ≤ 122

/-- Any ASCII letter: what the class `[A-Z]` matches under `re.IGNORECASE`. -/
def isAlphaC (c : Char) : Bool :=
  isUpperC c || isLowerC c

/-- Python's regex `\s` on its ASCII fragment: space, tab, newline,
carriage return, vertical tab, form feed. -/
def isSpaceC (c : Char) : Bool :=
  c == ' ' || c == '\t' || c == '\n' || c == '\r' || c == '\x0b' || c == '\x0c'

/-- Python `str.upper` on one ASCII character. -/
def toUpperC (c : Char) : Char :=
  if isLowerC c then Char.ofNat (c.toNat - 32) else c

/-- What the class `[STFG]` matches under `re.IGNORECASE`:
a character whose uppercasing is `S`, `T`, `F` or `G`. -/
def isNricStart (c : Char) : Bool :=
  toUpperC c == 'S' || toUpperC c == 'T' || toUpperC c == 'F' || toUpperC c == 'G'

/-- Attempt to match the regex `[STFG]\d{7}[A-Z]` (with `re.IGNORECASE`)
at the head of `cs`; on success return the 9-character matched span. -/
def matchNricAt (cs : List Char) : Option (List Char) :=
  match cs with
  | [] => none
  | a :: rest =>
    match rest.drop 7 with
    | [] => none
    | b :: _ =>
      if isNricStart a && (rest.take 7).all isDigitC && isAlphaC b then
        some (a :: (rest.take 7 ++ [b]))
      else none

/-- The first (leftmost) match of `[STFG]\d{7}[A-Z]` in the text, as
`re.findall(...)[0]` yields it. -/
def findNric : List Char → Option (List Char)
  | [] => none
  | c :: cs =>
    match matchNricAt (c :: cs) with
    | some m => some m
    | none => findNric cs

/-- The first (leftmost) match of the fallback regex `\d{7,}`: scanning
position by position, the first position where 7 or more consecutive digits
start yields the greedy (maximal) digit run from there. -/
def findDigitRun : List Char → Option (List Char)
  | [] => none
  | c :: cs =>
    if 7 ≤ ((c :: cs).takeWhile isDigitC).length then
      some ((c :: cs).takeWhile isDigitC)
    else findDigitRun cs

/-- `re.findall(r'\d', full_nric)` where `full_nric = m.upper()`:
the digit characters of the uppercased match, in order. -/
def digitsOf (m : List Char) : List Char :=
  (m.map toUpperC).filter isDigitC

/-- The fallback branch of `extract_nric_last_4`: first run of 7+ digits,
last four characters (`digit_sequences[0][-4:]`), else the sentinel. -/
def nricFallback (cs : List Char) : String :=
  match findDigitRun cs with
  | some run => String.mk (run.drop (run.length - 4))
  | none => "Not detected"

/-- Embedding of `extract_nric_last_4` from `src/app.py`:
empty text short-circuits to the sentinel; otherwise the first match of
`[STFG]\d{7}[A-Z]` (case-insensitive) is uppercased, its digits collected,
and — when at least four digits are present — the last four returned;
otherwise fall back to the first run of 7+ digits, else the sentinel. -/
def extract_nric_last_4 (text : String) : String :=
  if text = "" then "Not detected"
  else
    match findNric text.data with
    | some m =>
      if 4 ≤ (digitsOf m).length then
        String.mk ((digitsOf m).drop ((digitsOf m).length - 4))
      else nricFallback text.data
    | none => nricFallback text.data

/-- Attempt to match the regex `(?:NAME|Name):\s*([A-Z][A-Za-z\s]+)`
(with `re.IGNORECASE`) at the head of `cs`; on success return the captured
group.  Under `re.IGNORECASE` both label alternatives collapse to a
case-insensitive `name`, and the classes `[A-Z]` and `[A-Za-z]` both match
any letter of either case.  The greedy `\s*` consumes the whole whitespace
run (backtracking cannot help since `[A-Z]` never matches whitespace), and
the greedy `[A-Za-z\s]+` extends to the end of the letter/whitespace run,
requiring at least one character. -/
def matchNameAt (cs : List Char) : Option (List Char) :=
  match cs with
  | c1 :: c2 :: c3 :: c4 :: c5 :: rest =>
    if toUpperC c1 == 'N' && toUpperC c2 == 'A' && toUpperC c3 == 'M' &&
        toUpperC c4 == 'E' && c5 == ':' then
      match rest.dropWhile isSpaceC with
      | [] => none
      | c :: cs2 =>
        if isAlphaC c then
          if (cs2.takeWhile fun d => isAlphaC d || isSpaceC d).isEmpty then none
          else some (c :: cs2.takeWhile fun d => isAlphaC d || isSpaceC d)
        else none
    else none
  | _ => none

/-- `re.search` semantics for the name-label pattern: the match at the
leftmost position where the whole pattern matches. -/
def nameSearch : List Char → Option (List Char)
  | [] => none
  | c :: cs =>
    match matchNameAt (c :: cs) with
    | some g => some g
    | none => nameSearch cs

/-- Python `str.strip()`: remove leading and trailing whitespace. -/
def stripC (cs : List Char) : List Char :=
  ((cs.dropWhile isSpaceC).reverse.dropWhile isSpaceC).reverse

/-- Accumulator worker for `splitWs`: `acc` holds the reversed characters
of the token currently being read. -/
def splitWsAux : List Char → List Char → List (List Char)
  | [], acc => if acc.isEmpty then [] else [acc.reverse]
  | c :: cs, acc =>
    if isSpaceC c then
      if acc.isEmpty then splitWsAux cs [] else acc.reverse :: splitWsAux cs []
    else splitWsAux cs (c :: acc)

/-- Python `str.split()` with no argument: split on runs of whitespace,
producing only nonempty tokens. -/
def splitWs (cs : List Char) : List (List Char) :=
  splitWsAux cs []

/-- The filter of the comprehension
`[w for w in words if w and w[0].isupper() and len(w) > 2]`. -/
def capsPred (w : List Char) : Bool :=
  !w.isEmpty && isUpperC (w.headD ' ') && 2 < w.length

/-- `capitalized` in `extract_name`: the whitespace tokens of the text that
are nonempty, start with an uppercase letter, and are longer than 2. -/
def capitalizedWords (cs : List Char) : List (List Char) :=
  (splitWs cs).filter capsPred

/-- Embedding of `extract_name` from `src/app.py`:
empty text short-circuits to the sentinel; otherwise search for the
name-label pattern and return the captured group stripped; otherwise join
the first three capitalized tokens with single spaces; otherwise the
sentinel. -/
def extract_name (text : String) : String :=
  if text = "" then "Not detected"
  else
    match nameSearch text.data with
    | some g => String.mk (stripC g)
    | none =>
      if (capitalizedWords text.data).isEmpty then "Not detected"
      else String.mk (List.intercalate [' '] ((capitalizedWords text.data).take 3))

example : extract_name "REPUBLIC OF SINGAPORE\nNAME: JOHN DOE\nNRIC: S1234567A" = "JOHN DOE\nNRIC" := by decide
example : extract_name "REPUBLIC OF SINGAPORE\nJOHN DOE\nS1234567A" = "REPUBLIC SINGAPORE JOHN" := by decide
example : extract_name "" = "Not detected" := by decide
example : extract_name "123 456 789" = "Not detected" := by decide
example : extract_name "Name: john" = "john" := by decide
example : extract_name "NAME: X-YZ" = "NAME: X-YZ" := by decide
example : extract_name "NAME: JOHN DOE" = "JOHN DOE" := by decide
/-- The JSON body of a successful `/verify` response: exactly the five
fields serialized at the end of `verify_nric`. -/
structure SuccessBody where
  success : Bool
  ocr_text : String
  name : String
  nric_last_4 : String
  timestamp : String
deriving DecidableEq, Repr

/-- The three response shapes of the `/verify` handler: HTTP 200 with the
success body, HTTP 400 with an error body, HTTP 500 with an error body. -/
inductive VerifyResponse where
  | ok (body : SuccessBody)
  | clientError (error : String)
  | serverError (error : String)
deriving DecidableEq, Repr

/-- Embedding of the `/verify` handler `verify_nric` from `src/app.py`.

`Bytes` is the type of the uploaded file's raw contents and `Image` the
decoded bitmap; `decode` embeds `Image.open(io.BytesIO(...))` and `ocr`
embeds `pytesseract.image_to_string`, each returning `Except.error` with
the exception's textual description (`str(e)`) when the collaborator
raises.  `timestamp` is the formatted SGT clock reading.  `image?` is the
`image` entry of `request.files` when present.  The surrounding
`try/except` of the Python handler maps any collaborator failure to the
500-equivalent error body. -/
def verify_nric {Bytes Image : Type} (decode : Bytes → Except String Image)
    (ocr : Image → Except String String) (timestamp : String)
    (image? : Option Bytes) : VerifyResponse :=
  match image? with
  | none => .clientError "No image provided"
  | some bytes =>
    match decode bytes with
    | .error e => .serverError e
    | .ok img =>
      match ocr img with
      | .error e => .serverError e
      | .ok ocr_text =>
        .ok { success := true
              ocr_text := ocr_text
              name := extract_name ocr_text
              nric_last_4 := extract_nric_last_4 ocr_text
              timestamp := timestamp }

/-- A string contains a full match of the (case-insensitive) NRIC pattern
`[STFG]\d{7}[A-Z]` somewhere in it. -/
def containsFullNric (s : String) : Bool :=
  (findNric s.data).isSome

example : extract_nric_last_4 "S1234567A" = "4567" := by decide
example : extract_nric_last_4 "T9876543B" = "6543" := by decide
example : extract_nric_last_4 "nric: s1234567a" = "4567" := by decide
example : extract_nric_last_4 "ID: 1234567" = "4567" := by decide
example : extract_nric_last_4 "1234567" = "4567" := by decide
example : extract_nric_last_4 "REPUBLIC OF SINGAPORE" = "Not detected" := by decide
example : extract_nric_last_4 "" = "Not detected" := by decide
example : extract_nric_last_4 "S1234567A T9876543B" = "4567" := by decide

/-! ### Character-class facts -/

theorem isDigitC_iff (c : Char) : isDigitC c = true ↔ 48 ≤ c.toNat ∧ c.toNat ≤ 57 := by
  simp [isDigitC]

theorem isUpperC_iff (c : Char) : isUpperC c = true ↔ 65 ≤ c.toNat ∧ c.toNat ≤ 90 := by
  simp [isUpperC]

theorem isLowerC_iff (c : Char) : isLowerC c = true ↔ 97 ≤ c.toNat ∧ c.toNat ≤ 122 := by
  simp [isLowerC]

theorem toNat_ofNat_valid (n : Nat) (h : n.isValidChar) : (Char.ofNat n).toNat = n := by
  rw [Char.ofNat, dif_pos h]
  rfl

theorem toUpperC_toNat_of_lower (c : Char) (h : isLowerC c = true) :
    (toUpperC c).toNat = c.toNat - 32 := by
  have hb := (isLowerC_iff c).1 h
  rw [toUpperC, if_pos h, toNat_ofNat_valid]
  exact Or.inl (by omega)

theorem toUpperC_of_not_lower (c : Char) (h : isLowerC c = false) : toUpperC c = c := by
  rw [toUpperC, if_neg (by rw [h]; exact Bool.false_ne_true)]

theorem isDigitC_toUpperC (c : Char) : isDigitC (toUpperC c) = isDigitC c := by
  cases hl : isLowerC c with
  | false => rw [toUpperC_of_not_lower c hl]
  | true =>
    have hb := (isLowerC_iff c).1 hl
    have h1 : isDigitC (toUpperC c) = false := by
      rw [Bool.eq_false_iff]
      intro hcon
      have := (isDigitC_iff _).1 hcon
      rw [toUpperC_toNat_of_lower c hl] at this
      omega
    have h2 : isDigitC c = false := by
      rw [Bool.eq_false_iff]
      intro hcon
      have := (isDigitC_iff _).1 hcon
      omega
    rw [h1, h2]

theorem toUpperC_of_digit (c : Char) (h : isDigitC c = true) : toUpperC c = c := by
  apply toUpperC_of_not_lower
  rw [Bool.eq_false_iff]
  intro hcon
  have h1 := (isDigitC_iff c).1 h
  have h2 := (isLowerC_iff c).1 hcon
  omega

theorem isAlphaC_cases (c : Char) (h : isAlphaC c = true) :
    isUpperC c = true ∨ isLowerC c = true := by
  simpa [isAlphaC, Bool.or_eq_true] using h

theorem isDigitC_of_alpha (c : Char) (h : isAlphaC c = true) : isDigitC c = false := by
  rw [Bool.eq_false_iff]
  intro hcon
  have h1 := (isDigitC_iff c).1 hcon
  rcases isAlphaC_cases c h with hu | hl
  · have := (isUpperC_iff c).1 hu
    omega
  · have := (isLowerC_iff c).1 hl
    omega

theorem toNat_le_of_space (c : Char) (h : isSpaceC c = true) : c.toNat ≤ 32 := by
  simp only [isSpaceC, Bool.or_eq_true, beq_iff_eq, or_assoc] at h
  rcases h with rfl | rfl | rfl | rfl | rfl | rfl <;> decide

theorem isSpaceC_of_alpha (c : Char) (h : isAlphaC c = true) : isSpaceC c = false := by
  rw [Bool.eq_false_iff]
  intro hcon
  have h1 := toNat_le_of_space c hcon
  rcases isAlphaC_cases c h with hu | hl
  · have := (isUpperC_iff c).1 hu
    omega
  · have := (isLowerC_iff c).1 hl
    omega

theorem isNricStart_cases (c : Char) (h : isNricStart c = true) :
    toUpperC c = 'S' ∨ toUpperC c = 'T' ∨ toUpperC c = 'F' ∨ toUpperC c = 'G' := by
  simpa [isNricStart, Bool.or_eq_true, beq_iff_eq, or_assoc] using h

theorem isDigitC_toUpperC_of_start (c : Char) (h : isNricStart c = true) :
    isDigitC (toUpperC c) = false := by
  rcases isNricStart_cases c h with h' | h' | h' | h' <;> rw [h'] <;> decide

/-! ### Structure of the NRIC-pattern match -/

theorem matchNricAt_shape {cs m : List Char} (h : matchNricAt cs = some m) :
    ∃ a ds b, m = a :: (ds ++ [b]) ∧ ds.length = 7 ∧
      (∀ d ∈ ds, isDigitC d = true) ∧ isNricStart a = true ∧ isAlphaC b = true := by
  unfold matchNricAt at h
  split at h
  · simp at h
  next a rest =>
    split at h
    · simp at h
    next b t hdrop =>
      split at h
      next hc =>
        simp only [Bool.and_eq_true] at hc
        obtain ⟨⟨h1, h2⟩, h3⟩ := hc
        refine ⟨a, rest.take 7, b, (Option.some_inj.1 h).symm, ?_, ?_, h1, h3⟩
        · have h9 : (rest.drop 7).length = rest.length - 7 := rest.length_drop 7
          rw [hdrop] at h9
          have h10 : 7 ≤ rest.length := by
            simp at h9
            omega
          rw [rest.length_take 7]
          omega
        · exact fun d hd => List.all_eq_true.1 h2 d hd
      next => simp at h

theorem findNric_shape {cs m : List Char} (h : findNric cs = some m) :
    ∃ a ds b, m = a :: (ds ++ [b]) ∧ ds.length = 7 ∧
      (∀ d ∈ ds, isDigitC d = true) ∧ isNricStart a = true ∧ isAlphaC b = true := by
  induction cs with
  | nil => simp [findNric] at h
  | cons c cs ih =>
    rw [findNric] at h
    rcases hm : matchNricAt (c :: cs) with _ | m'
    · rw [hm] at h
      exact ih h
    · rw [hm] at h
      rw [Option.some_inj.1 h] at hm
      exact matchNricAt_shape hm

theorem digitsOf_eq {a b : Char} {ds : List Char}
    (hds : ∀ d ∈ ds, isDigitC d = true) (ha : isNricStart a = true)
    (hb : isAlphaC b = true) : digitsOf (a :: (ds ++ [b])) = ds := by
  have ha' : isDigitC (toUpperC a) = false := isDigitC_toUpperC_of_start a ha
  have hmap : ds.map toUpperC = ds := by
    conv_rhs => rw [← List.map_id ds]
    exact List.map_congr_left fun d hd => toUpperC_of_digit d (hds d hd)
  have hfds : ds.filter isDigitC = ds := List.filter_eq_self.2 hds
  have hbu : isDigitC (toUpperC b) = false := by
    rw [isDigitC_toUpperC]
    exact isDigitC_of_alpha b hb
  rw [digitsOf, List.map_cons, List.map_append, List.map_singleton,
    List.filter_cons, List.filter_append]
  simp [ha', hbu, hmap, hfds]

/-! ### Branch behaviour of `extract_nric_last_4` -/

theorem findNric_empty : findNric [] = none := rfl

theorem extract_nric_primary (text : String) (m : List Char)
    (h : findNric text.data = some m) :
    extract_nric_last_4 text =
      String.mk ((digitsOf m).drop ((digitsOf m).length - 4)) ∧
    (digitsOf m).length = 7 := by
  obtain ⟨a, ds, b, hm, hlen, hds, ha, hb⟩ := findNric_shape h
  have hd : digitsOf m = ds := by rw [hm]; exact digitsOf_eq hds ha hb
  have h7 : (digitsOf m).length = 7 := by rw [hd, hlen]
  refine ⟨?_, h7⟩
  have hne : ¬(text = "") := by
    intro he
    rw [he] at h
    exact absurd h (by simp [findNric_empty])
  rw [extract_nric_last_4, if_neg hne]
  simp only [h]
  rw [if_pos (by rw [h7]; omega)]

theorem extract_nric_none (text : String) (h : findNric text.data = none) :
    extract_nric_last_4 text = nricFallback text.data := by
  by_cases he : text = ""
  · rw [he]
    rfl
  · rw [extract_nric_last_4, if_neg he]
    simp only [h]

theorem findDigitRun_shape {cs run : List Char} (h : findDigitRun cs = some run) :
    7 ≤ run.length ∧ ∀ d ∈ run, isDigitC d = true := by
  induction cs with
  | nil => simp [findDigitRun] at h
  | cons c cs ih =>
    rw [findDigitRun] at h
    split at h
    next hc =>
      rw [← Option.some_inj.1 h]
      exact ⟨hc, fun d hd => List.mem_takeWhile_imp hd⟩
    next => exact ih h

/-! ### Structure of the name-label match and of stripping -/

theorem matchNameAt_shape {cs g : List Char} (h : matchNameAt cs = some g) :
    ∃ c body, g = c :: body ∧ isAlphaC c = true ∧
      ∀ d ∈ body, (isAlphaC d || isSpaceC d) = true := by
  unfold matchNameAt at h
  split at h
  case h_2 => simp at h
  case h_1 c1 c2 c3 c4 c5 rest =>
    split at h
    case isFalse => simp at h
    case isTrue =>
      split at h
      · simp at h
      next c cs2 hdw =>
        split at h
        case isFalse => simp at h
        case isTrue hca =>
          split at h
          case isTrue => simp at h
          case isFalse hne =>
            refine ⟨c, cs2.takeWhile fun d => isAlphaC d || isSpaceC d,
              (Option.some_inj.1 h).symm, hca, ?_⟩
            exact fun d hd =>
              List.mem_takeWhile_imp (p := fun d => isAlphaC d || isSpaceC d) hd

theorem nameSearch_shape {cs g : List Char} (h : nameSearch cs = some g) :
    ∃ c body, g = c :: body ∧ isAlphaC c = true ∧
      ∀ d ∈ body, (isAlphaC d || isSpaceC d) = true := by
  induction cs with
  | nil => simp [nameSearch] at h
  | cons c cs ih =>
    rw [nameSearch] at h
    rcases hm : matchNameAt (c :: cs) with _ | g'
    · rw [hm] at h
      exact ih h
    · rw [hm] at h
      rw [Option.some_inj.1 h] at hm
      exact matchNameAt_shape hm

theorem stripC_head_last {c : Char} (body : List Char) (hc : isSpaceC c = false) :
    (stripC (c :: body)).head? = some c ∧
      ∀ d, (stripC (c :: body)).getLast? = some d → isSpaceC d = false := by
  have hc' : ¬(isSpaceC c = true) := by rw [hc]; exact Bool.false_ne_true
  rw [stripC, List.dropWhile_cons_of_neg hc', List.reverse_cons, List.dropWhile_append]
  split
  next hemp =>
    have h1 : List.dropWhile isSpaceC [c] = [c] := by
      rw [List.dropWhile_cons_of_neg hc']
    rw [h1, List.reverse_singleton]
    exact ⟨rfl, fun d hd => by rw [← Option.some_inj.1 hd]; exact hc⟩
  next hemp =>
    rcases hX : body.reverse.dropWhile isSpaceC with _ | ⟨x, xs⟩
    · rw [hX] at hemp
      simp at hemp
    · have hx : isSpaceC x = false := by
        have := List.head?_dropWhile_not isSpaceC body.reverse
        rw [hX] at this
        exact this
      have hrev : (x :: xs ++ [c]).reverse = (c :: xs.reverse) ++ [x] := by
        simp
      rw [hrev]
      constructor
      · rfl
      · intro d hd
        rw [List.getLast?_concat] at hd
        rw [← Option.some_inj.1 hd]
        exact hx

/-! ### Branch behaviour of `extract_name` -/

theorem nameSearch_empty : nameSearch [] = none := rfl

theorem extract_name_step1 (text : String) (g : List Char)
    (h : nameSearch text.data = some g) :
    extract_name text = String.mk (stripC g) := by
  have hne : ¬(text = "") := by
    intro he
    rw [he] at h
    exact absurd h (by simp [nameSearch_empty])
  rw [extract_name, if_neg hne]
  simp only [h]

theorem extract_name_fallback (text : String) (h : nameSearch text.data = none) :
    (capitalizedWords text.data = [] → extract_name text = "Not detected") ∧
    (capitalizedWords text.data ≠ [] → extract_name text =
      String.mk (List.intercalate [' '] ((capitalizedWords text.data).take 3))) := by
  by_cases he : text = ""
  · refine ⟨fun _ => by rw [he]; rfl, fun hcap => absurd ?_ hcap⟩
    rw [he]
    rfl
  · rw [extract_name, if_neg he]
    simp only [h]
    constructor
    · intro hcap
      rw [if_pos (by rw [hcap]; rfl)]
    · intro hcap
      rw [if_neg (by simpa [List.isEmpty_iff] using hcap)]

/-! ### Output shape of `extract_nric_last_4` -/

theorem matchNricAt_none_of_short {cs : List Char} (h : cs.length < 9) :
    matchNricAt cs = none := by
  unfold matchNricAt
  split
  · rfl
  next a rest =>
    have hd : rest.drop 7 = [] := by
      apply List.drop_eq_nil_of_le
      simp only [List.length_cons] at h
      omega
    rw [hd]

theorem findNric_none_of_short (cs : List Char) (h : cs.length < 9) :
    findNric cs = none := by
  induction cs with
  | nil => rfl
  | cons c cs ih =>
    rw [findNric, matchNricAt_none_of_short h]
    exact ih (by simp only [List.length_cons] at h; omega)

theorem extract_nric_last_4_shape (s : String) :
    extract_nric_last_4 s = "Not detected" ∨
      ((extract_nric_last_4 s).length = 4 ∧
        ∀ c ∈ (extract_nric_last_4 s).data, isDigitC c = true) := by
  rcases hf : findNric s.data with _ | m
  · rw [extract_nric_none s hf]
    rcases hr : findDigitRun s.data with _ | run
    · left
      rw [nricFallback]
      simp only [hr]
    · right
      obtain ⟨h7, hds⟩ := findDigitRun_shape hr
      rw [nricFallback]
      simp only [hr]
      constructor
      · have hl : (String.mk (run.drop (run.length - 4))).length =
            (run.drop (run.length - 4)).length := rfl
        rw [hl, List.length_drop]
        omega
      · intro c hc
        exact hds c (List.mem_of_mem_drop hc)
  · right
    obtain ⟨heq, h7⟩ := extract_nric_primary s m hf
    rw [heq]
    constructor
    · have hl : (String.mk ((digitsOf m).drop ((digitsOf m).length - 4))).length =
          ((digitsOf m).drop ((digitsOf m).length - 4)).length := rfl
      rw [hl, List.length_drop, h7]
    · intro c hc
      have hmem : c ∈ digitsOf m := List.mem_of_mem_drop hc
      rw [digitsOf] at hmem
      exact List.of_mem_filter hmem

theorem extract_nric_no_full (t : String) :
    containsFullNric (extract_nric_last_4 t) = false := by
  rcases extract_nric_last_4_shape t with h | ⟨hlen, _⟩
  · rw [h]
    decide
  · rw [containsFullNric]
    have h9 : (extract_nric_last_4 t).data.length < 9 := by
      have hl : (extract_nric_last_4 t).data.length = (extract_nric_last_4 t).length := rfl
      omega
    rw [findNric_none_of_short _ h9]
    rfl

/-! ### Claim theorems -/

/-- C1 counterexample: the claim is false as stated — when the OCR
collaborator recognizes the text `S1234567A`, the success payload echoes
that text verbatim in its `ocr_text` field (and here also in `name`), so an
output field contains a full match of the NRIC pattern. -/
theorem nric_in_output_counterexample :
    verify_nric (fun _ : Unit => Except.ok ()) (fun _ : Unit => Except.ok "S1234567A")
        "2026-10-12 00:00:00 +08" (some ()) =
      VerifyResponse.ok { success := true
                          ocr_text := "S1234567A"
                          name := "S1234567A"
                          nric_last_4 := "4567"
                          timestamp := "2026-10-12 00:00:00 +08" } ∧
    containsFullNric "S1234567A" = true := by
  constructor
  · decide
  · decide

/-- C1 (amended): the extracted `nric_last_4` field of any success response
never contains a full national ID number — it is the sentinel or exactly
four digits, too short to hold a full NRIC match — but the `ocr_text` field
(and the `name` field) echo recognized text verbatim and can contain the
full ID. -/
theorem nric_field_no_full_id {Bytes Image : Type}
    (decode : Bytes → Except String Image) (ocr : Image → Except String String)
    (timestamp : String) (image? : Option Bytes) (body : SuccessBody)
    (h : verify_nric decode ocr timestamp image? = VerifyResponse.ok body) :
    containsFullNric body.nric_last_4 = false := by
  rcases image? with _ | bytes
  · have hv : verify_nric decode ocr timestamp (none : Option Bytes) =
        VerifyResponse.clientError "No image provided" := rfl
    rw [hv] at h
    simp at h
  · rcases hdec : decode bytes with e | img
    · have hv : verify_nric decode ocr timestamp (some bytes) =
          VerifyResponse.serverError e := by
        unfold verify_nric
        simp only [hdec]
      rw [hv] at h
      simp at h
    · rcases hocr : ocr img with e | t
      · have hv : verify_nric decode ocr timestamp (some bytes) =
            VerifyResponse.serverError e := by
          unfold verify_nric
          simp only [hdec, hocr]
        rw [hv] at h
        simp at h
      · have hv : verify_nric decode ocr timestamp (some bytes) =
            VerifyResponse.ok { success := true
                                ocr_text := t
                                name := extract_name t
                                nric_last_4 := extract_nric_last_4 t
                                timestamp := timestamp } := by
          unfold verify_nric
          simp only [hdec, hocr]
        rw [hv] at h
        simp only [VerifyResponse.ok.injEq] at h
        have hb : body.nric_last_4 = extract_nric_last_4 t := by
          rw [← h]
        rw [hb]
        exact extract_nric_no_full t

theorem nric_field_no_full_id_witness :
    containsFullNric (extract_nric_last_4 "S1234567A") = false :=
  nric_field_no_full_id (fun _ : Unit => Except.ok ())
    (fun _ : Unit => Except.ok "S1234567A") "ts" (some ())
    { success := true
      ocr_text := "S1234567A"
      name := extract_name "S1234567A"
      nric_last_4 := extract_nric_last_4 "S1234567A"
      timestamp := "ts" } rfl

/-- C2 counterexample: the claim is false as stated — because `re.IGNORECASE`
applies to the whole pattern, the class `[A-Z]` also matches lowercase
letters, so on `Name: john` (where the label is followed by a lowercase
letter) the label-based step does produce a result, namely `john`, which
does not begin with an uppercase letter, and the capitalized-token fallback
is not reached. -/
theorem name_label_step_counterexample :
    nameSearch ("Name: john".data) = some ("john".data) ∧
    extract_name "Name: john" = "john" ∧
    isUpperC 'j' = false := by
  refine ⟨by decide, by decide, by decide⟩

/-- C2 (amended): under `re.IGNORECASE` the label-based step succeeds
whenever the label is followed (after optional whitespace) by a letter of
either case and at least one further letter/whitespace character; when it
succeeds, the returned string is the captured span trimmed of surrounding
whitespace, and it begins with a letter (of either case, not necessarily
uppercase) and does not end in whitespace. -/
theorem name_step1_letter_trimmed (s : String) (g : List Char)
    (h : nameSearch s.data = some g) :
    extract_name s = String.mk (stripC g) ∧
    (∀ c, (stripC g).head? = some c → isAlphaC c = true) ∧
    (∀ c, (stripC g).getLast? = some c → isSpaceC c = false) := by
  obtain ⟨c, body, hg, hca, hbody⟩ := nameSearch_shape h
  have hcs : isSpaceC c = false := isSpaceC_of_alpha c hca
  obtain ⟨hh, hl⟩ := stripC_head_last body hcs
  subst hg
  refine ⟨extract_name_step1 s _ h, ?_, hl⟩
  intro c0 hc0
  rw [hh] at hc0
  rw [← Option.some_inj.1 hc0]
  exact hca

theorem name_step1_letter_trimmed_witness :
    extract_name "NAME: JOHN DOE" = String.mk (stripC ("JOHN DOE".data)) :=
  (name_step1_letter_trimmed "NAME: JOHN DOE" ("JOHN DOE".data) (by decide)).1

/-- C3: when the text contains a match of the (case-insensitive) NRIC
pattern, the result is the last four of the seven digit characters of the
first (leftmost) match after uppercasing (`digitsOf m` lists those seven
digits in order); in particular `S1234567A` yields `4567`, `T9876543B`
yields `6543`, and with two matches present only the leftmost one's suffix
is returned. -/
theorem nric_first_match_last4 :
    (∀ (s : String) (m : List Char), findNric s.data = some m →
      extract_nric_last_4 s = String.mk ((digitsOf m).drop 3) ∧
      (digitsOf m).length = 7 ∧ ∀ d ∈ digitsOf m, isDigitC d = true) ∧
    extract_nric_last_4 "S1234567A" = "4567" ∧
    extract_nric_last_4 "T9876543B" = "6543" ∧
    extract_nric_last_4 "S1234567A T9876543B" = "4567" := by
  refine ⟨?_, by decide, by decide, by decide⟩
  intro s m h
  obtain ⟨a, ds, b, hm, hlen, hds, ha, hb⟩ := findNric_shape h
  obtain ⟨heq, h7⟩ := extract_nric_primary s m h
  have hd : digitsOf m = ds := by
    rw [hm]
    exact digitsOf_eq hds ha hb
  have h34 : (7:Nat) - 4 = 3 := rfl
  refine ⟨?_, h7, ?_⟩
  · rw [heq, h7, h34]
  · intro d hdm
    rw [hd] at hdm
    exact hds d hdm

theorem nric_first_match_last4_witness :
    extract_nric_last_4 "S1234567A" = String.mk ((digitsOf ("S1234567A".data)).drop 3) :=
  (nric_first_match_last4.1 "S1234567A" ("S1234567A".data) (by decide)).1

/-- C4: when no NRIC pattern matches, the fallback returns the last four
characters of the first (leftmost) run of seven or more consecutive digits
(which consists of digits only); when no such run exists either, the result
is exactly the sentinel; the bare run `1234567` yields `4567`. -/
theorem nric_fallback_behaviour :
    (∀ (s : String) (run : List Char), findNric s.data = none →
      findDigitRun s.data = some run →
      7 ≤ run.length ∧ (∀ d ∈ run, isDigitC d = true) ∧
      extract_nric_last_4 s = String.mk (run.drop (run.length - 4))) ∧
    (∀ s : String, findNric s.data = none → findDigitRun s.data = none →
      extract_nric_last_4 s = "Not detected") ∧
    extract_nric_last_4 "1234567" = "4567" := by
  refine ⟨?_, ?_, by decide⟩
  · intro s run h hr
    obtain ⟨h7, hds⟩ := findDigitRun_shape hr
    refine ⟨h7, hds, ?_⟩
    rw [extract_nric_none s h, nricFallback]
    simp only [hr]
  · intro s h hr
    rw [extract_nric_none s h, nricFallback]
    simp only [hr]

theorem nric_fallback_behaviour_witness :
    extract_nric_last_4 "1234567" =
      String.mk (("1234567".data).drop (("1234567".data).length - 4)) :=
  (nric_fallback_behaviour.1 "1234567" ("1234567".data) (by decide) (by decide)).2.2

/-- C5: whenever decoding and recognition succeed with recognized text `t`,
the handler returns the success response whose body consists of exactly the
five fields, with `ocr_text` equal to `t` verbatim and the two heuristics
applied to the very same `t`. -/
theorem verify_success_payload {Bytes Image : Type}
    (decode : Bytes → Except String Image) (ocr : Image → Except String String)
    (timestamp : String) (bytes : Bytes) (img : Image) (t : String)
    (hdec : decode bytes = Except.ok img) (hocr : ocr img = Except.ok t) :
    verify_nric decode ocr timestamp (some bytes) =
      VerifyResponse.ok { success := true
                          ocr_text := t
                          name := extract_name t
                          nric_last_4 := extract_nric_last_4 t
                          timestamp := timestamp } := by
  unfold verify_nric
  simp only [hdec, hocr]

theorem verify_success_payload_witness :
    verify_nric (fun _ : Unit => Except.ok ()) (fun _ : Unit => Except.ok "NAME: JOHN DOE")
      "2026-10-12 00:00:00 +08" (some ()) =
      VerifyResponse.ok { success := true
                          ocr_text := "NAME: JOHN DOE"
                          name := extract_name "NAME: JOHN DOE"
                          nric_last_4 := extract_nric_last_4 "NAME: JOHN DOE"
                          timestamp := "2026-10-12 00:00:00 +08" } :=
  verify_success_payload _ _ _ _ _ _ rfl rfl

/-- C6: when the label-based step fails, the heuristic keeps the whitespace
tokens that are nonempty, start with an uppercase letter and are longer
than two characters (`capitalizedWords`); if any remain it returns the
first three joined by single spaces, otherwise exactly the sentinel — as on
the all-digit text `123 456 789`. -/
theorem name_fallback_tokens :
    (∀ s : String, nameSearch s.data = none →
      (capitalizedWords s.data = [] → extract_name s = "Not detected") ∧
      (capitalizedWords s.data ≠ [] → extract_name s =
        String.mk (List.intercalate [' '] ((capitalizedWords s.data).take 3)))) ∧
    extract_name "123 456 789" = "Not detected" := by
  exact ⟨fun s h => extract_name_fallback s h, by decide⟩

theorem name_fallback_tokens_witness :
    extract_name "JOHN DOE\nS1234567A" =
      String.mk (List.intercalate [' ']
        ((capitalizedWords ("JOHN DOE\nS1234567A".data)).take 3)) :=
  (name_fallback_tokens.1 "JOHN DOE\nS1234567A" (by decide)).2 (by decide)

/-- C7: a request whose multipart payload lacks the `image` field is
answered with the 400-equivalent body `{error: "No image provided"}`,
independently of the decoding and OCR collaborators (so neither decoding,
OCR, nor extraction is performed). -/
theorem verify_missing_image {Bytes Image : Type}
    (decode : Bytes → Except String Image) (ocr : Image → Except String String)
    (timestamp : String) :
    verify_nric decode ocr timestamp (none : Option Bytes) =
      VerifyResponse.clientError "No image provided" := rfl

/-- C8: when decoding fails, or decoding succeeds and recognition fails,
the handler returns the 500-equivalent body carrying exactly the failure's
textual description — never a success payload and never partial extraction
fields. -/
theorem verify_failure_error {Bytes Image : Type}
    (decode : Bytes → Except String Image) (ocr : Image → Except String String)
    (timestamp : String) (bytes : Bytes) (e : String) :
    (decode bytes = Except.error e →
      verify_nric decode ocr timestamp (some bytes) = VerifyResponse.serverError e) ∧
    (∀ img, decode bytes = Except.ok img → ocr img = Except.error e →
      verify_nric decode ocr timestamp (some bytes) = VerifyResponse.serverError e) := by
  constructor
  · intro h
    unfold verify_nric
    simp only [h]
  · intro img h1 h2
    unfold verify_nric
    simp only [h1, h2]

theorem verify_failure_error_witness :
    verify_nric (fun _ : Unit => (Except.error "decode failed" : Except String Unit))
        (fun _ : Unit => Except.ok "x") "ts" (some ()) =
      VerifyResponse.serverError "decode failed" ∧
    verify_nric (fun _ : Unit => (Except.ok () : Except String Unit))
        (fun _ : Unit => (Except.error "ocr failed" : Except String String)) "ts" (some ()) =
      VerifyResponse.serverError "ocr failed" :=
  ⟨(verify_failure_error _ _ _ _ _).1 rfl, (verify_failure_error _ _ _ _ _).2 () rfl rfl⟩

/-- C9: both heuristics are total functions on strings (they are defined by
structural recursion and always return a value), and on the empty input
both return exactly the sentinel. -/
theorem heuristics_empty_sentinel :
    extract_name "" = "Not detected" ∧ extract_nric_last_4 "" = "Not detected" :=
  ⟨rfl, rfl⟩

/-- C10: every result of `extract_nric_last_4` is either the sentinel or a
string of exactly four decimal digits; and whenever the primary NRIC
pattern matches, the four-digit guard is satisfied (the match holds seven
digits), so the primary branch answers and the digit-run fallback is never
reached. -/
theorem nric_output_shape :
    (∀ s : String, extract_nric_last_4 s = "Not detected" ∨
      ((extract_nric_last_4 s).length = 4 ∧
        ∀ c ∈ (extract_nric_last_4 s).data, isDigitC c = true)) ∧
    (∀ (s : String) (m : List Char), findNric s.data = some m →
      4 ≤ (digitsOf m).length ∧
      extract_nric_last_4 s =
        String.mk ((digitsOf m).drop ((digitsOf m).length - 4))) := by
  refine ⟨extract_nric_last_4_shape, ?_⟩
  intro s m h
  obtain ⟨heq, h7⟩ := extract_nric_primary s m h
  exact ⟨by omega, heq⟩

theorem nric_output_shape_witness :
    4 ≤ (digitsOf ("S1234567A".data)).length ∧
    extract_nric_last_4 "S1234567A" =
      String.mk ((digitsOf ("S1234567A".data)).drop
        ((digitsOf ("S1234567A".data)).length - 4)) :=
  nric_output_shape.2 "S1234567A" ("S1234567A".data) (by decide)
